import Mathlib

/-!
Shallow embedding of the album-description aggregation routine, the model
property store and the image-scaling routine of the Argos Mopidy client
(`argos/controllers/albums.py`, `argos/model.py`, `argos/window.py`),
together with theorems settling the specification claims about them.
-/

namespace Argos

open List

/-- An artist record as it appears in a raw track record: a dict whose
`name` key may be missing (`artists[0].get("name")` in the source). -/
structure Artist where
  name : Option String
  deriving DecidableEq, Repr

/-- The album metadata attached to a raw track record; every field is read
with `.get`, hence optional (`album.get("num_tracks")` etc.). -/
structure AlbumRef where
  num_tracks : Option Int
  num_discs : Option Int
  date : Option String
  deriving DecidableEq, Repr

/-- A raw track record as returned by a library lookup: a dict whose keys
`track_no`, `disc_no`, `length` and `album` may be missing. -/
structure TrackRecord where
  uri : String
  name : String
  track_no : Option Int
  disc_no : Option Int
  length : Option Int
  album : Option AlbumRef
  artists : List Artist
  deriving DecidableEq, Repr

/-- A normalized track descriptor as produced by track parsing, carrying
the fields the sorting step of `_describe_album` reads. -/
structure TrackModel where
  uri : String
  name : String
  disc_no : Int
  track_no : Int
  length : Option Int
  deriving DecidableEq, Repr

/-- One visitor step of the `LengthAcc` accumulator of
`argos/controllers/albums.py`: `if self.length != -1 and "length" in t:
self.length += int(t["length"]) else: self.length = -1`. -/
def lengthStep (acc : Int) (t : TrackRecord) : Int :=
  match t.length with
  | some l => if acc ≠ -1 then acc + l else -1
  | none => -1

/-- Running the `LengthAcc` visitor over the track records in supplied
order, starting from `length = 0`. -/
def lengthAcc (ts : List TrackRecord) : Int :=
  ts.foldl lengthStep 0

/-- The length a track contributes when it has one (`int(t["length"])`);
tracks without a length never reach the addition branch. -/
def trackLen (t : TrackRecord) : Int :=
  t.length.getD 0

theorem lengthStep_neg_one (t : TrackRecord) : lengthStep (-1) t = -1 := by
  unfold lengthStep
  cases t.length <;> simp

theorem foldl_lengthStep_neg_one (ts : List TrackRecord) :
    ts.foldl lengthStep (-1) = -1 := by
  induction ts with
  | nil => rfl
  | cons t ts ih => rw [List.foldl_cons, lengthStep_neg_one, ih]

theorem foldl_lengthStep_eq_sum (ts : List TrackRecord) :
    ∀ a : Int, (∀ t ∈ ts, t.length.isSome) →
    (∀ k < ts.length, a + ((ts.take k).map trackLen).sum ≠ -1) →
    ts.foldl lengthStep a = a + (ts.map trackLen).sum := by
  induction ts with
  | nil => intro a _ _; simp
  | cons t ts ih =>
    intro a hall hpre
    have ha : a ≠ -1 := by
      have := hpre 0 (by simp)
      simpa using this
    obtain ⟨l, hl⟩ := Option.isSome_iff_exists.mp (hall t (by simp))
    have hstep : lengthStep a t = a + l := by
      unfold lengthStep
      rw [hl]
      simp [ha]
    have hlen : trackLen t = l := by
      unfold trackLen
      rw [hl]
      rfl
    rw [List.foldl_cons, hstep]
    rw [ih (a + l) (fun u hu => hall u (List.mem_cons_of_mem t hu))]
    · simp [hlen]
      ring
    · intro k hk
      have := hpre (k + 1) (by simpa using Nat.succ_lt_succ hk)
      simpa [List.take_succ_cons, hlen, add_assoc] using this

/-- Concrete track record with a given uri and length, no other data. -/
def mkLenTrack (u : String) (l : Option Int) : TrackRecord :=
  ⟨u, "", none, none, l, none, []⟩

/-- Track list whose lengths are all present but whose first length is the
sentinel value itself. -/
def c1Tracks : List TrackRecord :=
  [mkLenTrack "a" (some (-1)), mkLenTrack "b" (some 2)]

/-- Track list exhibiting the sentinel collision: every track has a
length, a prefix sums to -1, and a later length is then dropped. -/
def c8Tracks : List TrackRecord :=
  [mkLenTrack "x" (some (-1)), mkLenTrack "y" (some 5)]

/-- C1: the claim as stated fails on the code: the list `c1Tracks` is
non-empty, every track supplies a `length`, yet the aggregated total is
not the arithmetic sum of the lengths (it is the -1 sentinel). -/
theorem C1_counterexample :
    c1Tracks ≠ [] ∧ c1Tracks.all (fun t => t.length.isSome) = true ∧
    lengthAcc c1Tracks ≠ (c1Tracks.map trackLen).sum := by
  refine ⟨by decide, by decide, ?_⟩
  decide

/-- C1 (amended): for every non-empty sequence of track records in which
every track supplies a `length` and no proper prefix of the lengths sums
to the -1 sentinel, the aggregated `total_length_ms` equals the exact
arithmetic sum of those lengths. -/
theorem C1_total_length_is_sum (ts : List TrackRecord)
    (_hne : ts ≠ [])
    (hall : ts.all (fun t => t.length.isSome) = true)
    (hpre : ∀ k < ts.length, ((ts.take k).map trackLen).sum ≠ -1) :
    lengthAcc ts = (ts.map trackLen).sum := by
  have hall' : ∀ t ∈ ts, t.length.isSome := by
    intro t ht
    exact List.all_eq_true.mp hall t ht
  have := foldl_lengthStep_eq_sum ts 0 hall' (by simpa using hpre)
  simpa [lengthAcc] using this

/-- Witness for C1: evaluating the amended statement on a concrete
two-track list with lengths 200000 and 180000. -/
theorem C1_total_length_is_sum_witness :
    lengthAcc [mkLenTrack "a" (some 200000), mkLenTrack "b" (some 180000)] =
      ([mkLenTrack "a" (some 200000), mkLenTrack "b" (some 180000)].map trackLen).sum :=
  C1_total_length_is_sum _ (by decide) (by decide) (by decide)

/-- C2: any track sequence containing a track without a `length` makes the
aggregated total the -1 sentinel, regardless of the position of that
track; later tracks with lengths are not added back. -/
theorem C2_missing_length_poisons (ts : List TrackRecord)
    (h : ts.any (fun t => t.length.isNone) = true) :
    lengthAcc ts = -1 := by
  obtain ⟨t, ht, hnone⟩ := List.any_eq_true.mp h
  have hnone' : t.length = none := by
    simpa [Option.isNone_iff_eq_none] using hnone
  clear h hnone
  unfold lengthAcc
  generalize (0 : Int) = a
  induction ts generalizing a with
  | nil => cases ht
  | cons u ts ih =>
    rcases List.mem_cons.mp ht with h | h
    · subst h
      rw [List.foldl_cons]
      have : lengthStep a t = -1 := by
        unfold lengthStep
        rw [hnone']
      rw [this, foldl_lengthStep_neg_one]
    · rw [List.foldl_cons]
      exact ih h _

/-- Witness for C2: a track without length in the middle of the list
forces the sentinel even though the surrounding tracks have lengths. -/
theorem C2_missing_length_poisons_witness :
    lengthAcc [mkLenTrack "a" (some 7), mkLenTrack "b" none, mkLenTrack "c" (some 9)] = -1 :=
  C2_missing_length_poisons _ (by decide)

/-- C8: the unknown sentinel is the integer -1 and it is reachable as a
genuine running sum: on `c8Tracks` every track supplies a length, the
aggregate is reported as the sentinel -1, and that differs from the exact
sum of the lengths. -/
theorem C8_sentinel_collision :
    c8Tracks.all (fun t => t.length.isSome) = true ∧
    lengthAcc c8Tracks = -1 ∧
    lengthAcc c8Tracks ≠ (c8Tracks.map trackLen).sum := by
  refine ⟨by decide, by decide, by decide⟩

/-- Modelled from the spec: `parse_tracks` (called by `_describe_album`
but not part of the shown sources) maps each input track record 1:1 to a
normalized descriptor carrying over uri, name, length, disc_no and
track_no, with the absent-number placeholder fixed to 0. -/
def parseTracks (ts : List TrackRecord) : List TrackModel :=
  ts.map fun t => ⟨t.uri, t.name, t.disc_no.getD 0, t.track_no.getD 0, t.length⟩

/-- The sort key used by `parsed_tracks.sort(key=attrgetter("disc_no",
"track_no"))`. -/
def trackKey (t : TrackModel) : Int × Int :=
  (t.disc_no, t.track_no)

/-- Lexicographic comparison of the `(disc_no, track_no)` key tuples, as
Python compares the tuples produced by `attrgetter`. -/
def trackLe (t u : TrackModel) : Bool :=
  t.disc_no < u.disc_no || (t.disc_no == u.disc_no && t.track_no ≤ u.track_no)

/-- The sorting step of `_describe_album`: a stable sort of the parsed
tracks by the `(disc_no, track_no)` key (`list.sort` is stable). -/
def sortTracks (l : List TrackModel) : List TrackModel :=
  l.mergeSort trackLe

theorem trackLe_trans (a b c : TrackModel) :
    trackLe a b → trackLe b c → trackLe a c := by
  unfold trackLe
  intro hab hbc
  simp only [Bool.or_eq_true, Bool.and_eq_true, decide_eq_true_eq, beq_iff_eq] at *
  rcases hab with h | ⟨h, h'⟩ <;> rcases hbc with g | ⟨g, g'⟩
  · exact Or.inl (lt_trans h g)
  · exact Or.inl (g ▸ h)
  · exact Or.inl (h ▸ g)
  · exact Or.inr ⟨h.trans g, le_trans h' g'⟩

theorem trackLe_total (a b : TrackModel) : trackLe a b || trackLe b a := by
  unfold trackLe
  simp only [Bool.or_eq_true, Bool.and_eq_true, decide_eq_true_eq, beq_iff_eq]
  rcases lt_trichotomy a.disc_no b.disc_no with h | h | h
  · exact Or.inl (Or.inl h)
  · rcases le_total a.track_no b.track_no with h' | h'
    · exact Or.inl (Or.inr ⟨h, h'⟩)
    · exact Or.inr (Or.inr ⟨h.symm, h'⟩)
  · exact Or.inr (Or.inl h)

theorem trackLe_of_key_eq {a b : TrackModel} (h : trackKey a = trackKey b) :
    trackLe a b = true := by
  unfold trackKey at h
  unfold trackLe
  rw [Prod.ext_iff] at h
  obtain ⟨h1, h2⟩ := h
  simp only at h1 h2
  simp [h1, h2]

theorem filter_key_sublist_sortTracks (l : List TrackModel) (k : Int × Int) :
    l.filter (fun t => trackKey t = k) <+ sortTracks l := by
  apply List.sublist_mergeSort trackLe_trans trackLe_total
  · apply List.pairwise_of_forall_mem_list
    intro a ha b hb
    have hak := of_decide_eq_true (List.mem_filter.mp ha).2
    have hbk := of_decide_eq_true (List.mem_filter.mp hb).2
    exact trackLe_of_key_eq (hak.trans hbk.symm)
  · exact List.filter_sublist l

/-- C3: the output track list is the input list sorted by the key
`(disc_no, track_no)` ascending with a stable sort: the output is a
permutation of the input, consecutive output tracks are in ascending key
order, and for every key the tracks carrying that key appear in the
output exactly in their relative input order. -/
theorem C3_sort_stable_by_key (l : List TrackModel) (k : Int × Int) :
    sortTracks l ~ l ∧
    (sortTracks l).Pairwise (fun a b => trackLe a b = true) ∧
    (sortTracks l).filter (fun t => trackKey t = k) =
      l.filter (fun t => trackKey t = k) := by
  refine ⟨List.mergeSort_perm l trackLe,
    List.sorted_mergeSort trackLe_trans trackLe_total l, ?_⟩
  have hsub : l.filter (fun t => trackKey t = k) <+
      (sortTracks l).filter (fun t => trackKey t = k) := by
    have h1 := (filter_key_sublist_sortTracks l k).filter
      (fun t => decide (trackKey t = k))
    have h2 : (l.filter (fun t => trackKey t = k)).filter
        (fun t => decide (trackKey t = k)) = l.filter (fun t => trackKey t = k) := by
      apply List.filter_eq_self.mpr
      intro a ha
      exact (List.mem_filter.mp ha).2
    rwa [h2] at h1
  have hperm : (sortTracks l).filter (fun t => trackKey t = k) ~
      l.filter (fun t => trackKey t = k) :=
    (List.mergeSort_perm l trackLe).filter _
  exact (hsub.eq_of_length hperm.length_eq.symm).symm

/-- The result pushed by `_describe_album` into
`complete_album_description`: the album uri and the aggregated fields. -/
structure AlbumDescription where
  uri : String
  artist_name : Option String
  num_tracks : Option Int
  num_discs : Option Int
  date : Option String
  length : Int
  tracks : List TrackModel
  deriving DecidableEq, Repr

/-- The artist-name extraction of `_describe_album`:
`artists[0].get("name") if len(artists) > 0 else None`. -/
def firstArtistName (artists : List Artist) : Option String :=
  match artists with
  | a :: _ => a.name
  | [] => none

/-- The `_describe_album` aggregation of `argos/controllers/albums.py`
over an already-fetched lookup result: `none` models the paths on which
the routine returns without calling `complete_album_description` (uri
absent, empty track list, or first track without album metadata). -/
def describeAlbum (m : List (String × List TrackRecord)) (uri : String) :
    Option AlbumDescription :=
  match m.lookup uri with
  | some (t :: ts) =>
    match t.album with
    | none => none
    | some alb =>
      some ⟨uri, firstArtistName t.artists, alb.num_tracks, alb.num_discs, alb.date,
        lengthAcc (t :: ts), sortTracks (parseTracks (t :: ts))⟩
  | _ => none

/-- C4: when the target uri is absent from the lookup result or maps to an
empty track sequence, the aggregation produces no album description, so
the caller performs no model update. -/
theorem C4_not_found (m : List (String × List TrackRecord)) (uri : String)
    (h : m.lookup uri = none ∨ m.lookup uri = some []) :
    describeAlbum m uri = none := by
  unfold describeAlbum
  rcases h with h | h <;> rw [h]

/-- Witness for C4: an absent uri and a uri mapping to an empty sequence
both yield no description. -/
theorem C4_not_found_witness :
    describeAlbum [("u", [])] "missing" = none ∧
    describeAlbum [("u", [])] "u" = none :=
  ⟨C4_not_found _ _ (Or.inl rfl), C4_not_found _ _ (Or.inr rfl)⟩

/-- Concrete track whose record carries no album metadata. -/
def c5TrackNoAlbum : TrackRecord :=
  ⟨"t1", "first", some 1, some 1, some 10, none, []⟩

/-- Concrete track whose record carries album metadata. -/
def c5TrackWithAlbum : TrackRecord :=
  ⟨"t2", "second", some 2, some 1, some 20, some ⟨some 5, some 1, some "2020"⟩, []⟩

/-- Concrete lookup result whose first track lacks the album field while
the second track carries it. -/
def c5Lookup : List (String × List TrackRecord) :=
  [("u", [c5TrackNoAlbum, c5TrackWithAlbum])]

/-- C5: the claim as stated fails on the code: in `c5Lookup` the second
track carries an album field, yet no description is produced at all, so
in particular no description carrying that album's `num_tracks` exists. -/
theorem C5_counterexample :
    (∃ t ∈ (c5Lookup.lookup "u").getD [], t.album.isSome) ∧
    describeAlbum c5Lookup "u" = none ∧
    ¬∃ d, describeAlbum c5Lookup "u" = some d ∧ d.num_tracks = some 5 := by
  refine ⟨⟨c5TrackWithAlbum, by decide, by decide⟩, by decide, ?_⟩
  rintro ⟨d, hd, -⟩
  rw [show describeAlbum c5Lookup "u" = none by decide] at hd
  exact Option.noConfusion hd

/-- C5 (amended): the aggregation reads the album metadata fields
`num_tracks`, `num_discs` and `date` from the album field of the first
track record of the sequence only; when that first record carries the
field the description reproduces its values, and when it does not the
routine produces no description at all (the update is silently skipped),
so the fields are never defaulted to 0. -/
theorem C5_album_metadata_from_first_track (m : List (String × List TrackRecord))
    (uri : String) (t : TrackRecord) (ts : List TrackRecord)
    (h : m.lookup uri = some (t :: ts)) :
    (t.album = none → describeAlbum m uri = none) ∧
    (∀ alb, t.album = some alb →
      ∃ d, describeAlbum m uri = some d ∧ d.num_tracks = alb.num_tracks ∧
        d.num_discs = alb.num_discs ∧ d.date = alb.date) := by
  constructor
  · intro halb
    simp only [describeAlbum, h, halb]
  · intro alb halb
    have hd : describeAlbum m uri =
        some ⟨uri, firstArtistName t.artists, alb.num_tracks, alb.num_discs,
          alb.date, lengthAcc (t :: ts), sortTracks (parseTracks (t :: ts))⟩ := by
      simp only [describeAlbum, h, halb]
    exact ⟨_, hd, rfl, rfl, rfl⟩

/-- Witness for C5: on a lookup whose first track carries album metadata
the description reproduces `num_tracks`, `num_discs` and `date`. -/
theorem C5_album_metadata_from_first_track_witness :
    ∃ d, describeAlbum [("u", [c5TrackWithAlbum])] "u" = some d ∧
      d.num_tracks = some 5 ∧ d.num_discs = some 1 ∧ d.date = some "2020" :=
  (C5_album_metadata_from_first_track [("u", [c5TrackWithAlbum])] "u"
    c5TrackWithAlbum [] (by decide)).2 ⟨some 5, some 1, some "2020"⟩ (by decide)

/-- C6: the description's `artist_name` is the `name` field of the first
element of the first track's `artists` list, and is absent when that list
is empty. -/
theorem C6_artist_name_from_first_track (m : List (String × List TrackRecord))
    (uri : String) (t : TrackRecord) (ts : List TrackRecord) (d : AlbumDescription)
    (h : m.lookup uri = some (t :: ts))
    (hd : describeAlbum m uri = some d) :
    (∀ a rest, t.artists = a :: rest → d.artist_name = a.name) ∧
    (t.artists = [] → d.artist_name = none) := by
  cases halb : t.album with
  | none =>
    simp only [describeAlbum, h, halb] at hd
    exact Option.noConfusion hd
  | some alb =>
    simp only [describeAlbum, h, halb, Option.some.injEq] at hd
    constructor
    · intro a rest hart
      rw [← hd, hart]
      rfl
    · intro hart
      rw [← hd, hart]
      rfl

/-- Concrete track carrying album metadata and a two-artist list. -/
def c6Track : TrackRecord :=
  ⟨"t", "song", some 1, some 1, some 10, some ⟨some 1, some 1, some "1999"⟩,
    [⟨some "Alice"⟩, ⟨some "Bob"⟩]⟩

/-- Witness for C6: on a concrete lookup the description's artist name is
the first artist's name. -/
theorem C6_artist_name_from_first_track_witness :
    (describeAlbum [("u", [c6Track])] "u").map (fun d => d.artist_name) =
      some (some "Alice") := by
  obtain ⟨d, hd⟩ : ∃ d, describeAlbum [("u", [c6Track])] "u" = some d := ⟨_, rfl⟩
  have hname := (C6_artist_name_from_first_track [("u", [c6Track])] "u"
    c6Track [] d (by decide) hd).1 ⟨some "Alice"⟩ [⟨some "Bob"⟩] (by decide)
  simp [hd, hname]

/-- Integer computation of `round(a / b)` for naturals: the value
`(2 * a + b) / (2 * b)` in natural division. -/
def natRoundDiv (a b : ℕ) : ℕ :=
  (2 * a + b) / (2 * b)

/-- Modelled from the spec: `compute_target_size` (imported from
`argos/utils.py`, which is not among the shown sources) scales the source
dimensions by `target_width / max(source_width, source_height)`, rounds
each component to the nearest integer, clamps each to a minimum of 1, and
rejects non-positive inputs (`InvalidDimension`, modelled as `none`). -/
def compute_target_size (source_width source_height target_width : ℕ) :
    Option (ℕ × ℕ) :=
  if source_width = 0 ∨ source_height = 0 ∨ target_width = 0 then none
  else
    let m := max source_width source_height
    some (max 1 (natRoundDiv (source_width * target_width) m),
      max 1 (natRoundDiv (source_height * target_width) m))

theorem natRoundDiv_eq_round (a b : ℕ) (hb : b ≠ 0) :
    (natRoundDiv a b : ℤ) = round ((a : ℚ) / (b : ℚ)) := by
  have hb' : (b : ℚ) ≠ 0 := Nat.cast_ne_zero.mpr hb
  rw [round_eq]
  have hx : (a : ℚ) / (b : ℚ) + 1 / 2 = ((2 * a + b : ℕ) : ℚ) / ((2 * b : ℕ) : ℚ) := by
    push_cast
    field_simp
    ring
  rw [hx]
  have h0 : (0 : ℚ) ≤ ((2 * a + b : ℕ) : ℚ) / ((2 * b : ℕ) : ℚ) := by positivity
  have hfl : ⌊((2 * a + b : ℕ) : ℚ) / ((2 * b : ℕ) : ℚ)⌋₊ = (2 * a + b) / (2 * b) := by
    rw [Nat.floor_div_nat, Nat.floor_natCast]
  have hcast : (⌊((2 * a + b : ℕ) : ℚ) / ((2 * b : ℕ) : ℚ)⌋₊ : ℤ) =
      ⌊((2 * a + b : ℕ) : ℚ) / ((2 * b : ℕ) : ℚ)⌋ := by
    rw [← Int.floor_toNat, Int.toNat_of_nonneg (Int.floor_nonneg.mpr h0)]
  rw [← hcast, hfl]
  rfl

theorem max_one_natRoundDiv (a b : ℕ) (hb : b ≠ 0) :
    max 1 (natRoundDiv a b) = (max 1 (round ((a : ℚ) / (b : ℚ)))).toNat := by
  rw [← natRoundDiv_eq_round a b hb]
  have : (max (1 : ℤ) (natRoundDiv a b : ℤ)) = ((max 1 (natRoundDiv a b) : ℕ) : ℤ) := by
    push_cast
    rfl
  rw [this, Int.toNat_natCast]

/-- C7: for positive inputs, `compute_target_size` returns the source
dimensions scaled by `target_width / max(source_width, source_height)`,
each rounded to the nearest integer and clamped to a minimum of 1; in
particular the three example evaluations of the spec hold. -/
theorem C7_compute_target_size (w h t : ℕ) (hw : 0 < w) (hh : 0 < h) (ht : 0 < t) :
    compute_target_size w h t =
      some ((max 1 (round (((w * t : ℕ) : ℚ) / ((max w h : ℕ) : ℚ)))).toNat,
        (max 1 (round (((h * t : ℕ) : ℚ) / ((max w h : ℕ) : ℚ)))).toNat) ∧
    compute_target_size 1920 1080 100 = some (100, 56) ∧
    compute_target_size 1080 1920 100 = some (56, 100) ∧
    compute_target_size 50 50 100 = some (100, 100) := by
  refine ⟨?_, by decide, by decide, by decide⟩
  have hm : max w h ≠ 0 := (lt_of_lt_of_le hw (le_max_left w h)).ne'
  unfold compute_target_size
  rw [if_neg (by push_neg; exact ⟨hw.ne', hh.ne', ht.ne'⟩)]
  simp only [max_one_natRoundDiv _ _ hm]

/-- Witness for C7: the landscape example evaluated through the theorem. -/
theorem C7_compute_target_size_witness :
    compute_target_size 1920 1080 100 = some (100, 56) :=
  (C7_compute_target_size 1920 1080 100 (by decide) (by decide) (by decide)).2.1

/-- An `Album` entry of the model's album list (`argos/model.py`). -/
structure Album where
  name : String
  uri : String
  image_path : String
  image_uri : String
  deriving DecidableEq, Repr

/-- A raw album record passed to the album-list update, whose keys are
read with `.get` and may be missing. -/
structure AlbumRecord where
  name : Option String
  uri : Option String
  image_path : Option String
  image_uri : Option String
  deriving DecidableEq, Repr

/-- A value held by a model property, or the album-record list passed for
the pseudo-property `"albums"`. -/
inductive PropValue where
  | b (v : Bool)
  | i (v : Int)
  | s (v : String)
  | albums (v : List AlbumRecord)
  deriving DecidableEq, Repr

/-- The state of the `Model` object of `argos/model.py`: its GObject
properties and the plain `albums` list. -/
structure ModelState where
  network_available : Bool
  connected : Bool
  state : Int
  mute : Bool
  volume : Int
  track_uri : String
  track_name : String
  track_length : Int
  time_position : Int
  artist_uri : String
  artist_name : String
  image_path : String
  albums_loaded : Bool
  albums_images_loaded : Bool
  albums : List Album
  deriving DecidableEq, Repr

/-- The `get_property` lookup over the model's GObject properties; `none`
models the GObject error raised for an unknown property name (`albums` is
not a GObject property). -/
def getProperty (st : ModelState) (name : String) : Option PropValue :=
  match name with
  | "network_available" => some (.b st.network_available)
  | "connected" => some (.b st.connected)
  | "state" => some (.i st.state)
  | "mute" => some (.b st.mute)
  | "volume" => some (.i st.volume)
  | "track_uri" => some (.s st.track_uri)
  | "track_name" => some (.s st.track_name)
  | "track_length" => some (.i st.track_length)
  | "time_position" => some (.i st.time_position)
  | "artist_uri" => some (.s st.artist_uri)
  | "artist_name" => some (.s st.artist_name)
  | "image_path" => some (.s st.image_path)
  | "albums_loaded" => some (.b st.albums_loaded)
  | "albums_images_loaded" => some (.b st.albums_images_loaded)
  | _ => none

/-- Python truthiness of an optional string: `None` and `""` are falsy. -/
def truthyStr (v : Option String) : Bool :=
  match v with
  | some s => !(s == "")
  | none => false

/-- One iteration of the `_set_albums` loop: a record whose `name` or
`uri` is missing or falsy is skipped, otherwise it becomes an `Album`
with empty-string defaults for the image fields. -/
def albumFromRecord (v : AlbumRecord) : Option Album :=
  if truthyStr v.name && truthyStr v.uri then
    some ⟨v.name.getD "", v.uri.getD "", v.image_path.getD "", v.image_uri.getD ""⟩
  else none

/-- The scheduling branch of `set_property_in_gtk_thread` for a plain
GObject property: a `GLib.idle_add` deferred set is scheduled only when
the new value differs from the current one. Callers pass names of
existing properties. -/
def schedulePropSet (st : ModelState) (name : String) (v : PropValue) :
    List (String × PropValue) :=
  if getProperty st name = some v then [] else [(name, v)]

/-- The `_set_albums` update of `argos/model.py`: when albums were already
loaded, the loaded flags are scheduled to be reset and the list cleared;
the incoming records are then filtered and appended, and the loaded flag
is scheduled to be set. Scheduled property sets compare against the state
at entry, since `GLib.idle_add` defers their application. -/
def setAlbums (st : ModelState) (recs : List AlbumRecord) :
    ModelState × List (String × PropValue) :=
  let clearSched :=
    if st.albums_loaded then
      schedulePropSet st "albums_loaded" (.b false) ++
        schedulePropSet st "albums_images_loaded" (.b false)
    else []
  let base := if st.albums_loaded then [] else st.albums
  ({ st with albums := base ++ recs.filterMap albumFromRecord },
    clearSched ++ schedulePropSet st "albums_loaded" (.b true))

/-- The `set_property_in_gtk_thread` dispatch of `argos/model.py`: the
pseudo-property `"albums"` goes through `_set_albums`, any other name is
compared against its current value and scheduled only on change; `none`
models the exceptions raised for an unknown property name or a non-list
`"albums"` value. -/
def setPropertyInGtkThread (st : ModelState) (name : String) (v : PropValue) :
    Option (ModelState × List (String × PropValue)) :=
  if name = "albums" then
    match v with
    | .albums recs => some (setAlbums st recs)
    | _ => none
  else
    match getProperty st name with
    | some cur => some (st, if cur = v then [] else [(name, v)])
    | none => none

/-- Every album entry the update loop accepts has a non-empty name and a
non-empty uri. -/
def albumOk (a : Album) : Bool :=
  !(a.name == "") && !(a.uri == "")

theorem albumOk_of_albumFromRecord (r : AlbumRecord) (a : Album)
    (h : albumFromRecord r = some a) : albumOk a = true := by
  unfold albumFromRecord at h
  by_cases hc : (truthyStr r.name && truthyStr r.uri) = true
  · rw [if_pos hc] at h
    injection h with h
    obtain ⟨hn, hu⟩ := Bool.and_eq_true .. ▸ hc
    cases hrn : r.name with
    | none => rw [hrn] at hn; exact absurd hn (by decide)
    | some sn =>
      cases hru : r.uri with
      | none => rw [hru] at hu; exact absurd hu (by decide)
      | some su =>
        rw [hrn] at hn
        rw [hru] at hu
        have hn' : (!(sn == "")) = true := hn
        have hu' : (!(su == "")) = true := hu
        rw [← h]
        unfold albumOk
        simp only [hrn, hru, Option.getD_some]
        simp [hn', hu']
  · rw [if_neg hc] at h
    exact Option.noConfusion h

/-- C9: the album-list update preserves the invariant that every stored
album has a non-empty `name` and a non-empty `uri`: records missing
either field (or carrying an empty string) are skipped, and entries kept
from the previous list already satisfied the predicate. -/
theorem C9_albums_invariant (st : ModelState) (recs : List AlbumRecord)
    (h : st.albums.all albumOk = true) :
    (setAlbums st recs).1.albums.all albumOk = true := by
  unfold setAlbums
  simp only [List.all_append, Bool.and_eq_true, List.all_eq_true]
  constructor
  · intro a ha
    by_cases hl : st.albums_loaded
    · simp [hl] at ha
    · simp only [hl, if_neg] at ha
      exact List.all_eq_true.mp h a (by simpa using ha)
  · intro a ha
    obtain ⟨r, _, har⟩ := List.mem_filterMap.mp ha
    exact albumOk_of_albumFromRecord r a har

/-- Concrete model state holding one valid album, with albums loaded. -/
def c9State : ModelState :=
  ⟨false, false, 0, false, 0, "", "", -1, -1, "", "", "", true, false,
    [⟨"Blue", "mopidy:album:1", "", ""⟩]⟩

/-- Concrete update batch mixing valid records with records whose name or
uri is missing or empty. -/
def c9Records : List AlbumRecord :=
  [⟨some "Kind of Blue", some "mopidy:album:2", some "/tmp/a.png", none⟩,
    ⟨none, some "mopidy:album:3", none, none⟩,
    ⟨some "", some "mopidy:album:4", none, none⟩,
    ⟨some "Nameless", none, none, none⟩,
    ⟨some "Green", some "mopidy:album:5", none, some "http://x"⟩]

/-- Witness for C9: after updating `c9State` with `c9Records` every stored
album still has a non-empty name and uri. -/
theorem C9_albums_invariant_witness :
    (setAlbums c9State c9Records).1.albums.all albumOk = true :=
  C9_albums_invariant c9State c9Records (by decide)

/-- C10: setting a plain model property to a value equal to its current
value is a no-op: nothing is scheduled on the GTK loop and the model
state is unchanged. -/
theorem C10_set_equal_value_noop (st : ModelState) (name : String) (v : PropValue)
    (hn : name ≠ "albums") (hv : getProperty st name = some v) :
    setPropertyInGtkThread st name v = some (st, []) := by
  simp [setPropertyInGtkThread, hn, hv]

/-- Concrete model state for the no-op property set. -/
def c10State : ModelState :=
  ⟨true, true, 1, false, 55, "mopidy:track:9", "So What", 545000, 1000,
    "mopidy:artist:7", "Miles Davis", "/tmp/cover.png", false, false, []⟩

/-- Witness for C10: re-setting `volume` to its current value changes
nothing and schedules nothing. -/
theorem C10_set_equal_value_noop_witness :
    setPropertyInGtkThread c10State "volume" (.i 55) = some (c10State, []) :=
  C10_set_equal_value_noop c10State "volume" (.i 55) (by decide) (by decide)

end Argos
